import Mathlib

/-!
Verification of the `trash` CLI (github.com/artemisfowl/trash): a utility
that moves filesystem paths into timestamped batch directories under
`~/.config/trash/` and restores them from a `.restore` JSON sidecar.

The Go source is shallowly embedded below:
* `internal/config` (RestoreItem, RestoreMetadata, MoveToTrash,
  SaveRestoreMetadata) and the JSON sidecar encoding;
* `cmd/root.go` (the multi-path trash loop with its success/failure count);
* `cmd/restore.go` (the match resolver over batch directories, the
  destination-handling / transfer phase, and the post-restore metadata
  update).

Filesystem effects are modelled by oracles (`TrashEnv`, `TransferEnv`)
recording the success or failure of each primitive call, and by explicit
lists of performed mutation actions (`FsAction`).
-/

namespace Trash

/-- `config.RestoreItem`: metadata for a single trashed item
(`name`, `original_path`, `trashed_at` in the JSON sidecar). -/
structure RestoreItem where
  name : String
  originalPath : String
  trashedAt : String
  deriving DecidableEq

/-- `config.RestoreMetadata`: the `.restore` sidecar structure, an ordered
collection of items belonging to one batch. -/
structure RestoreMetadata where
  items : List RestoreItem
  deriving DecidableEq

/-! ## Restore resolver (cmd/restore.go, lines 40–131)

A batch directory entry is modelled as its name paired with the outcome of
reading and parsing its `.restore` sidecar: `none` when the sidecar is
missing, unreadable, or unparsable (all three are skipped with `continue`
in the source), `some md` when it parses to `md`. -/

/-- One entry of the `matches` slice in `restoreCmd`: the batch identifier
(directory name) together with the matched item.  (The source also carries
`TrashDirPath`, which is just the trash root joined with `Timestamp`.) -/
structure MatchedItem where
  timestamp : String
  item : RestoreItem
  deriving DecidableEq

/-- Executable lexicographic strict comparison of character lists, the
order Go's `sort.StringSlice` uses (byte/scalar-value comparison). -/
def charListLt : List Char → List Char → Bool
  | [], [] => false
  | [], _ :: _ => true
  | _ :: _, [] => false
  | a :: as, b :: bs =>
    if a.toNat < b.toNat then true
    else if b.toNat < a.toNat then false
    else charListLt as bs

/-- Executable `<` on strings (Go string comparison). -/
def strLtB (a b : String) : Bool :=
  charListLt a.data b.data

theorem charListLt_iff :
    ∀ as bs : List Char, (charListLt as bs = true ↔ List.Lex (· < ·) as bs) := by
  intro as
  induction as with
  | nil =>
    intro bs
    cases bs with
    | nil =>
      rw [charListLt]
      exact iff_of_false (by simp) (List.Lex.not_nil_right _ _)
    | cons b bs =>
      rw [charListLt]
      exact iff_of_true rfl List.Lex.nil
  | cons a as ih =>
    intro bs
    cases bs with
    | nil =>
      rw [charListLt]
      exact iff_of_false (by simp) (List.Lex.not_nil_right _ _)
    | cons b bs =>
      rw [charListLt]
      rcases Nat.lt_trichotomy a.toNat b.toNat with h | h | h
      · rw [if_pos h]
        exact iff_of_true rfl (List.Lex.rel h)
      · have hne₁ : ¬ a.toNat < b.toNat := by omega
        have hne₂ : ¬ b.toNat < a.toNat := by omega
        have hab : a = b := by
          apply Char.eq_of_val_eq
          apply UInt32.eq_of_toBitVec_eq
          exact BitVec.toNat_injective h
        rw [if_neg hne₁, if_neg hne₂]
        subst hab
        exact (ih bs).trans List.Lex.cons_iff.symm
      · have hne₁ : ¬ a.toNat < b.toNat := by omega
        rw [if_neg hne₁, if_pos h]
        refine iff_of_false (by simp) ?_
        intro hlex
        cases hlex with
        | rel h' => exact absurd h' hne₁
        | cons h' => exact absurd h (lt_irrefl _)

/-- `strLtB` computes the standard lexicographic `<` on strings. -/
theorem strLtB_iff (a b : String) : strLtB a b = true ↔ a < b := by
  rw [String.lt_iff_toList_lt]
  exact charListLt_iff a.data b.data

theorem strLtB_eq_false_iff (a b : String) : strLtB a b = false ↔ b ≤ a := by
  rw [← Bool.not_eq_true, strLtB_iff]
  exact not_lt

/-- The descending string order on directory entries used by
`sort.Sort(sort.Reverse(sort.StringSlice(trashDirs)))`: `a` precedes `b`
when `a`'s name is not lexicographically smaller than `b`'s. -/
def dirGE (a b : String × Option RestoreMetadata) : Prop :=
  strLtB a.1 b.1 = false

theorem dirGE_iff (a b : String × Option RestoreMetadata) :
    dirGE a b ↔ b.1 ≤ a.1 :=
  strLtB_eq_false_iff a.1 b.1

instance : DecidableRel dirGE := fun a b =>
  inferInstanceAs (Decidable (strLtB a.1 b.1 = false))

instance : IsTotal (String × Option RestoreMetadata) dirGE :=
  ⟨fun a b => by
    rw [dirGE_iff, dirGE_iff]
    exact le_total b.1 a.1⟩

instance : IsTrans (String × Option RestoreMetadata) dirGE :=
  ⟨fun a b c hab hbc => by
    rw [dirGE_iff] at hab hbc ⊢
    exact le_trans hbc hab⟩

/-- The search loop of `restoreCmd` (lines 65–100): walk the (already
sorted) directory list; skip a directory when a timestamp is specified and
differs from its name; skip a directory whose sidecar is absent or does not
parse; otherwise append every metadata item whose name equals `itemName`,
in metadata order. -/
def collectMatches (itemName specifiedTimestamp : String) :
    List (String × Option RestoreMetadata) → List MatchedItem
  | [] => []
  | e :: rest =>
    if specifiedTimestamp ≠ "" ∧ e.1 ≠ specifiedTimestamp then
      collectMatches itemName specifiedTimestamp rest
    else
      match e.2 with
      | none => collectMatches itemName specifiedTimestamp rest
      | some md =>
        ((md.items.filter (fun it => it.name = itemName)).map
          (fun it => ⟨e.1, it⟩)) ++
        collectMatches itemName specifiedTimestamp rest

/-- `restoreCmd` lines 55–100: sort the batch directory names in descending
string order (newest first), then run the search loop. -/
def findMatches (itemName specifiedTimestamp : String)
    (entries : List (String × Option RestoreMetadata)) : List MatchedItem :=
  collectMatches itemName specifiedTimestamp (List.insertionSort dirGE entries)

/-- Outcome of the match-handling phase of `restoreCmd` (lines 102–131). -/
inductive RestoreDecision where
  | notFound
  | displayAll (ms : List MatchedItem)
  | doRestore (m : MatchedItem)
  deriving DecidableEq

/-- `restoreCmd` lines 102–131: no match is an error; with more than one
match and `--all` the matches are only displayed; otherwise the first match
(`matches[0]`) is restored.  Note the `--all` branch is nested inside
`len(matches) > 1`, so with a single match `--all` is ignored. -/
def restoreDecision (showAll : Bool) (specifiedTimestamp itemName : String)
    (entries : List (String × Option RestoreMetadata)) : RestoreDecision :=
  match findMatches itemName specifiedTimestamp entries with
  | [] => .notFound
  | m0 :: rest =>
    if showAll ∧ rest ≠ [] then .displayAll (m0 :: rest)
    else .doRestore m0

/-! ### Resolver lemmas -/

theorem mem_collectMatches_timestamp {itemName ts : String}
    {l : List (String × Option RestoreMetadata)} {m : MatchedItem}
    (h : m ∈ collectMatches itemName ts l) : ∃ e ∈ l, m.timestamp = e.1 := by
  induction l with
  | nil => simp [collectMatches] at h
  | cons d rest ih =>
    obtain ⟨dirName, meta⟩ := d
    rw [collectMatches] at h
    split at h
    · obtain ⟨e, he, hts⟩ := ih h
      exact ⟨e, List.mem_cons_of_mem _ he, hts⟩
    · cases meta with
      | none =>
        obtain ⟨e, he, hts⟩ := ih h
        exact ⟨e, List.mem_cons_of_mem _ he, hts⟩
      | some md =>
        rcases List.mem_append.mp h with hin | hin
        · obtain ⟨it, _, rfl⟩ := List.mem_map.mp hin
          exact ⟨(dirName, some md), List.mem_cons_self _ _, rfl⟩
        · obtain ⟨e, he, hts⟩ := ih hin
          exact ⟨e, List.mem_cons_of_mem _ he, hts⟩

theorem pairwise_collectMatches {itemName ts : String}
    {l : List (String × Option RestoreMetadata)}
    (h : List.Pairwise dirGE l) :
    List.Pairwise (fun x y : MatchedItem => y.timestamp ≤ x.timestamp)
      (collectMatches itemName ts l) := by
  induction l with
  | nil => simp [collectMatches]
  | cons d rest ih =>
    obtain ⟨hd, hrest⟩ := List.pairwise_cons.mp h
    obtain ⟨dirName, meta⟩ := d
    rw [collectMatches]
    split
    · exact ih hrest
    · cases meta with
      | none => exact ih hrest
      | some md =>
        refine List.pairwise_append.mpr ⟨?_, ih hrest, ?_⟩
        · refine List.pairwise_of_forall_mem_list ?_
          intro a ha b hb
          obtain ⟨ita, _, rfl⟩ := List.mem_map.mp ha
          obtain ⟨itb, _, rfl⟩ := List.mem_map.mp hb
          exact le_refl dirName
        · intro x hx y hy
          obtain ⟨itx, _, rfl⟩ := List.mem_map.mp hx
          obtain ⟨e, he, hts⟩ := mem_collectMatches_timestamp hy
          rw [hts]
          exact (dirGE_iff _ _).mp (hd e he)

theorem pairwise_findMatches (itemName ts : String)
    (entries : List (String × Option RestoreMetadata)) :
    List.Pairwise (fun x y : MatchedItem => y.timestamp ≤ x.timestamp)
      (findMatches itemName ts entries) :=
  pairwise_collectMatches (List.sorted_insertionSort dirGE entries)

/-- C1: a restore without a timestamp restriction restores the first
collected match, which is a real match and comes from the batch whose
identifier string is lexicographically greatest among all matches: every
collected match has a timestamp less than or equal to the chosen one. -/
theorem restore_picks_lexicographically_greatest_batch
    (entries : List (String × Option RestoreMetadata))
    (itemName : String) (m0 : MatchedItem)
    (h : restoreDecision false "" itemName entries = .doRestore m0) :
    m0 ∈ findMatches itemName "" entries ∧
      ∀ m ∈ findMatches itemName "" entries, m.timestamp ≤ m0.timestamp := by
  unfold restoreDecision at h
  rcases hms : findMatches itemName "" entries with _ | ⟨a, rest⟩ <;> rw [hms] at h
  · simp at h
  · simp at h
    subst h
    have hp := pairwise_findMatches itemName "" entries
    rw [hms] at hp
    obtain ⟨hhead, _⟩ := List.pairwise_cons.mp hp
    refine ⟨List.mem_cons_self _ _, ?_⟩
    intro m hm
    rcases List.mem_cons.mp hm with rfl | hmem
    · exact le_refl _
    · exact hhead m hmem

/-- Witness for C1 at a concrete trash state with the same name in two
batches: the match from batch 20250102_000000 (the greater identifier) is
the one chosen and is among the matches. -/
theorem restore_picks_lexicographically_greatest_batch_witness :
    (⟨"20250102_000000", ⟨"a.txt", "/home/u/a.txt", "t2"⟩⟩ : MatchedItem) ∈
      findMatches "a.txt" ""
        [("20250101_000000", some ⟨[⟨"a.txt", "/home/u/a.txt", "t1"⟩]⟩),
         ("20250102_000000", some ⟨[⟨"a.txt", "/home/u/a.txt", "t2"⟩]⟩)] :=
  (restore_picks_lexicographically_greatest_batch
    [("20250101_000000", some ⟨[⟨"a.txt", "/home/u/a.txt", "t1"⟩]⟩),
     ("20250102_000000", some ⟨[⟨"a.txt", "/home/u/a.txt", "t2"⟩]⟩)]
    "a.txt" ⟨"20250102_000000", ⟨"a.txt", "/home/u/a.txt", "t2"⟩⟩
    (by decide)).1

/-! ## MoveToTrash (internal/config, `MoveToTrash`, part_002 lines 74–124)

The filesystem calls are modelled by an outcome oracle: `statNotExist`
(does `os.Stat` report the source as missing), `statErr` (any other stat
failure), `isDir`, and the success of `os.Rename`, of the copy fallback
(`CopyDir`/`CopyFile`) and of the removal of the original
(`os.RemoveAll`/`os.Remove`). -/

structure TrashEnv where
  statNotExist : Bool
  statErr : Bool
  isDir : Bool
  renameOk : Bool
  copyOk : Bool
  removeOk : Bool
  deriving DecidableEq

/-- `config.MoveToTrash`: stat the source (missing or failing stat is an
error); try an atomic rename; on rename failure fall back to copy
(recursive for directories) and then removal of the original.  A failing
copy or a failing removal each return an error; only full success returns
the base name. -/
def MoveToTrash (env : TrashEnv) (baseName : String) : Except String String :=
  if env.statNotExist then .error "path does not exist"
  else if env.statErr then .error "failed to stat source"
  else if env.renameOk then .ok baseName
  else if env.isDir then
    if env.copyOk = false then .error "failed to copy directory to trash"
    else if env.removeOk = false then .error "failed to remove original directory"
    else .ok baseName
  else
    if env.copyOk = false then .error "failed to copy file to trash"
    else if env.removeOk = false then .error "failed to remove original file"
    else .ok baseName

/-- Does a `MoveToTrash` outcome count as a failure in `rootCmd`? -/
def isTrashError : Except String String → Bool
  | .error _ => true
  | .ok _ => false

/-- The per-path loop of `rootCmd` (part_000 lines 57–84): each path is
attempted independently; an error is recorded in `failedPaths` without
aborting the remaining paths, a success increments `successCount`. -/
def trashRun (outcome : String → Except String String)
    (paths : List String) : Nat × List String :=
  paths.foldl
    (fun acc p =>
      match outcome p with
      | .error _ => (acc.1, acc.2 ++ [p])
      | .ok _ => (acc.1 + 1, acc.2))
    (0, [])

/-- `rootCmd` exit status (part_000 lines 98–101): exit code 1 exactly when
some path failed, 0 otherwise. -/
def trashExitCode (result : Nat × List String) : Nat :=
  if result.2.isEmpty then 0 else 1

theorem isTrashError_error (e : String) : isTrashError (.error e) = true := rfl

theorem isTrashError_ok (v : String) : isTrashError (.ok v) = false := rfl

theorem countP_bool_not {α : Type} (pred : α → Bool) (l : List α) :
    l.countP (fun a => !pred a) + l.countP pred = l.length := by
  induction l with
  | nil => simp
  | cons a l ih =>
    rw [List.countP_cons, List.countP_cons, List.length_cons]
    cases h : pred a <;> simp [h] <;> omega

theorem trashRun_foldl_eq (outcome : String → Except String String) :
    ∀ (paths : List String) (n : Nat) (l : List String),
      paths.foldl
        (fun acc p =>
          match outcome p with
          | .error _ => (acc.1, acc.2 ++ [p])
          | .ok _ => (acc.1 + 1, acc.2)) (n, l) =
      (n + paths.countP (fun p => !(isTrashError (outcome p))),
       l ++ paths.filter (fun p => isTrashError (outcome p))) := by
  intro paths
  induction paths with
  | nil => intro n l; simp
  | cons p rest ih =>
    intro n l
    rw [List.foldl_cons, List.countP_cons, List.filter_cons]
    cases h : outcome p with
    | error e =>
      simp only [h, isTrashError_error, Bool.not_true, Bool.false_eq_true,
        if_false, if_true]
      rw [ih]
      simp
    | ok v =>
      simp only [h, isTrashError_ok, Bool.not_false, Bool.false_eq_true,
        if_false, if_true]
      rw [ih]
      simp only [Prod.mk.injEq]
      exact ⟨by omega, trivial⟩

theorem trashRun_eq (outcome : String → Except String String)
    (paths : List String) :
    trashRun outcome paths =
      (paths.countP (fun p => !(isTrashError (outcome p))),
       paths.filter (fun p => isTrashError (outcome p))) := by
  rw [trashRun, trashRun_foldl_eq]
  simp

/-- C6: a trash invocation over paths of which exactly one fails (and the
rest succeed) reports `N-1` successes and `1` failure, and exits with
code 1; the failing path does not abort the others. -/
theorem trash_reports_aggregate_counts
    (outcome : String → Except String String) (paths : List String)
    (h : paths.countP (fun p => isTrashError (outcome p)) = 1) :
    (trashRun outcome paths).1 = paths.length - 1 ∧
    (trashRun outcome paths).2.length = 1 ∧
    trashExitCode (trashRun outcome paths) = 1 := by
  rw [trashRun_eq]
  have hlen := countP_bool_not (fun p => isTrashError (outcome p)) paths
  refine ⟨by simp only []; omega, ?_, ?_⟩
  · simp only [← List.countP_eq_length_filter]
    exact h
  · have hfl : (paths.filter (fun p => isTrashError (outcome p))).length = 1 := by
      rw [← List.countP_eq_length_filter]
      exact h
    rw [trashExitCode]
    rcases hf : paths.filter (fun p => isTrashError (outcome p)) with _ | ⟨a, rest⟩
    · rw [hf] at hfl
      simp at hfl
    · simp

/-- Witness for C6: three paths of which only "missing.txt" does not exist
(modelled through `MoveToTrash` oracles): 2 successes, 1 failure,
exit code 1. -/
theorem trash_reports_aggregate_counts_witness :
    (trashRun
      (fun p => MoveToTrash
        (if p = "missing.txt"
         then ⟨true, false, false, false, false, false⟩
         else ⟨false, false, false, true, true, true⟩) p)
      ["a.txt", "missing.txt", "b.txt"]).1 = 2 ∧
    (trashRun
      (fun p => MoveToTrash
        (if p = "missing.txt"
         then ⟨true, false, false, false, false, false⟩
         else ⟨false, false, false, true, true, true⟩) p)
      ["a.txt", "missing.txt", "b.txt"]).2.length = 1 ∧
    trashExitCode (trashRun
      (fun p => MoveToTrash
        (if p = "missing.txt"
         then ⟨true, false, false, false, false, false⟩
         else ⟨false, false, false, true, true, true⟩) p)
      ["a.txt", "missing.txt", "b.txt"]) = 1 :=
  trash_reports_aggregate_counts _ _ (by decide)

/-- Counterexample for C2 as stated: with the atomic rename failing, the
copy succeeding and the removal of the original failing, `MoveToTrash`
returns an error (not the base name), and the `rootCmd` loop counts the
item as a failure, not a success. -/
theorem moveToTrash_remove_failure_counterexample :
    MoveToTrash ⟨false, false, false, false, true, false⟩ "notes.txt" =
      .error "failed to remove original file" ∧
    trashRun (fun _ => MoveToTrash ⟨false, false, false, false, true, false⟩ "notes.txt")
      ["notes.txt"] = (0, ["notes.txt"]) :=
  ⟨rfl, rfl⟩

/-- C2 amended: when the rename fails, the fallback copy succeeds and the
removal of the original fails, `MoveToTrash` reports an error and does not
return the base name; the caller counts the item as a failure.  (The copy
already placed in the batch is not rolled back.) -/
theorem moveToTrash_remove_failure_is_error (env : TrashEnv) (n : String)
    (h1 : env.statNotExist = false) (h2 : env.statErr = false)
    (h3 : env.renameOk = false) (h4 : env.copyOk = true)
    (h5 : env.removeOk = false) :
    MoveToTrash env n =
      .error (if env.isDir then "failed to remove original directory"
              else "failed to remove original file") := by
  obtain ⟨a, b, c, d, e, f⟩ := env
  simp only at h1 h2 h3 h4 h5
  subst h1 h2 h3 h4 h5
  cases c <;> simp [MoveToTrash]

/-- Witness for C2's amended theorem at a concrete directory trashing. -/
theorem moveToTrash_remove_failure_is_error_witness :
    MoveToTrash ⟨false, false, true, false, true, false⟩ "docs" =
      .error "failed to remove original directory" :=
  moveToTrash_remove_failure_is_error
    ⟨false, false, true, false, true, false⟩ "docs" rfl rfl rfl rfl rfl

/-! ## Post-restore metadata update (cmd/restore.go, lines 197–224)

After the physical transfer, `restoreCmd` re-reads the sidecar (ignoring
read and parse errors, which leave the zero-valued metadata, i.e. no
items), drops every item whose name equals the restored name, and then
either removes the whole batch directory (when nothing remains) or
rewrites the sidecar with the remaining items. -/

/-- The filtering loop of lines 203–208: keep, in order, every item whose
name differs from the restored item's name. -/
def removeItemItems (items : List RestoreItem) (itemName : String) :
    List RestoreItem :=
  items.foldl
    (fun acc item => if item.name ≠ itemName then acc ++ [item] else acc) []

/-- The result of the sidecar re-read at line 199–201: `none` when the read
or the JSON parse fails (both errors are ignored, leaving zero-valued
metadata with no items). -/
def rereadItems : Option RestoreMetadata → List RestoreItem
  | some m => m.items
  | none => []

/-- What lines 210–224 do to the batch directory. -/
inductive BatchUpdate where
  | removeBatch
  | writeSidecar (metadata : RestoreMetadata)
  deriving DecidableEq

/-- Lines 197–224: compute the remaining items; when none remain the whole
batch directory (sidecar included) is recursively removed, otherwise the
sidecar is rewritten with the remaining items. -/
def postRestoreUpdate (reread : Option RestoreMetadata) (itemName : String) :
    BatchUpdate :=
  if removeItemItems (rereadItems reread) itemName = [] then .removeBatch
  else .writeSidecar ⟨removeItemItems (rereadItems reread) itemName⟩

theorem removeItemItems_foldl (itemName : String) :
    ∀ (items : List RestoreItem) (acc : List RestoreItem),
      items.foldl
        (fun acc item =>
          if item.name ≠ itemName then acc ++ [item] else acc) acc =
      acc ++ items.filter (fun i => i.name ≠ itemName) := by
  intro items
  induction items with
  | nil => intro acc; simp
  | cons i rest ih =>
    intro acc
    rw [List.foldl_cons, List.filter_cons]
    by_cases h : i.name = itemName
    · simp only [h, ne_eq, not_true_eq_false, if_false, decide_False]
      exact ih acc
    · simp only [ne_eq, h, not_false_eq_true, if_true, decide_True]
      rw [ih]
      simp

theorem removeItemItems_eq_filter (items : List RestoreItem) (n : String) :
    removeItemItems items n = items.filter (fun i => i.name ≠ n) := by
  rw [removeItemItems, removeItemItems_foldl]
  simp

/-- C4: the post-restore metadata update drops every item whose name equals
the restored name (including duplicates) and keeps all items with a
different name, in their original order (it is exactly a filter). -/
theorem removeItem_removes_all_matching (items : List RestoreItem)
    (n : String) :
    removeItemItems items n = items.filter (fun i => i.name ≠ n) ∧
    (∀ i ∈ removeItemItems items n, i.name ≠ n) ∧
    (∀ i ∈ items, i.name ≠ n → i ∈ removeItemItems items n) := by
  refine ⟨removeItemItems_eq_filter items n, ?_, ?_⟩
  · intro i hi
    rw [removeItemItems_eq_filter] at hi
    have := (List.mem_filter.mp hi).2
    simpa using this
  · intro i hi hne
    rw [removeItemItems_eq_filter]
    exact List.mem_filter.mpr ⟨hi, by simpa using hne⟩

/-- Witness for C4 on a batch with a duplicated name: both items named "a"
are dropped in one update and the other item is kept. -/
theorem removeItem_removes_all_matching_witness :
    removeItemItems
      [⟨"a", "/p1", "t1"⟩, ⟨"b", "/p2", "t2"⟩, ⟨"a", "/p3", "t3"⟩] "a" =
      [⟨"b", "/p2", "t2"⟩] := by
  rw [(removeItem_removes_all_matching
    [⟨"a", "/p1", "t1"⟩, ⟨"b", "/p2", "t2"⟩, ⟨"a", "/p3", "t3"⟩] "a").1]
  decide

/-- C5: after a restore, when every item recorded in the re-read sidecar
bears the restored name (the restored item was the last remaining one),
the whole batch directory is removed; when some item with another name
remains, the batch is kept and the sidecar is rewritten with exactly the
non-matching items. -/
theorem last_item_restore_removes_batch (M : RestoreMetadata) (n : String) :
    ((∀ i ∈ M.items, i.name = n) →
      postRestoreUpdate (some M) n = .removeBatch) ∧
    ((∃ i ∈ M.items, i.name ≠ n) →
      postRestoreUpdate (some M) n =
        .writeSidecar ⟨M.items.filter (fun i => i.name ≠ n)⟩) := by
  constructor
  · intro h
    rw [postRestoreUpdate]
    rw [if_pos]
    rw [rereadItems, removeItemItems_eq_filter]
    refine List.filter_eq_nil_iff.mpr ?_
    intro i hi
    simp [h i hi]
  · intro ⟨i, hi, hne⟩
    have hmem : i ∈ (rereadItems (some M)).filter (fun i => i.name ≠ n) :=
      List.mem_filter.mpr ⟨hi, by simpa using hne⟩
    have hnil : removeItemItems (rereadItems (some M)) n ≠ [] := by
      rw [removeItemItems_eq_filter]
      exact List.ne_nil_of_mem hmem
    rw [postRestoreUpdate, if_neg hnil, removeItemItems_eq_filter]
    rfl

/-- Witness for C5: restoring "a" from a batch whose metadata lists only
"a" removes the batch; restoring "a" when "b" also remains rewrites the
sidecar keeping "b". -/
theorem last_item_restore_removes_batch_witness :
    postRestoreUpdate (some ⟨[⟨"a", "/p", "t"⟩]⟩) "a" = .removeBatch ∧
    postRestoreUpdate (some ⟨[⟨"a", "/p", "t"⟩, ⟨"b", "/q", "t"⟩]⟩) "a" =
      .writeSidecar ⟨[⟨"b", "/q", "t"⟩]⟩ :=
  ⟨(last_item_restore_removes_batch ⟨[⟨"a", "/p", "t"⟩]⟩ "a").1 (by decide),
   (last_item_restore_removes_batch
      ⟨[⟨"a", "/p", "t"⟩, ⟨"b", "/q", "t"⟩]⟩ "a").2 (by decide)⟩

/-- C10: when the sidecar re-read fails (read or parse error, both
ignored) or parses to an empty item list, the remaining-items list is
empty and the whole batch directory is recursively removed — regardless
of what is still physically present in the batch. -/
theorem unreadable_sidecar_removes_whole_batch (n : String) :
    postRestoreUpdate none n = .removeBatch ∧
    postRestoreUpdate (some ⟨[]⟩) n = .removeBatch :=
  ⟨rfl, rfl⟩

/-! ## Restore transfer phase (cmd/restore.go, lines 133–224)

The filesystem mutations the command performs are tracked as an explicit
action list; an action is recorded when the corresponding call succeeds
(a failed call mutates nothing in this model and, except for the two
warning cases, aborts the command). -/

inductive FsAction where
  | removeDest
  | mkdirParent
  | renameToDest
  | copyDirToDest
  | copyFileToDest
  | removeSrcFromTrash
  | removeBatchDir
  | writeSidecarFile (metadata : RestoreMetadata)
  deriving DecidableEq

/-- Outcome oracle for the filesystem calls of the transfer phase:
`destExists` (does `os.Stat(destPath)` succeed), `removeDestOk`
(`os.RemoveAll(destPath)` under `--force`), `mkdirOk`
(`os.MkdirAll(parentDir)`), `renameOk` (`os.Rename`), `sourceStatOk`
(`os.Stat(sourcePath)` in the fallback), `sourceIsDir`, `copyOk`
(`CopyDir`/`CopyFile`), `removeSrcOk` (`os.RemoveAll(sourcePath)`, whose
failure is only a warning), and `reread`, the sidecar re-read of the
metadata-update phase. -/
structure TransferEnv where
  destExists : Bool
  removeDestOk : Bool
  mkdirOk : Bool
  renameOk : Bool
  sourceStatOk : Bool
  sourceIsDir : Bool
  copyOk : Bool
  removeSrcOk : Bool
  reread : Option RestoreMetadata
  deriving DecidableEq

/-- The mutation performed by the metadata-update phase (its failures are
warnings and do not change the command's success). -/
def updateActions : BatchUpdate → List FsAction
  | .removeBatch => [.removeBatchDir]
  | .writeSidecar m => [.writeSidecarFile m]

/-- Lines 137–224 of `restoreCmd`: destination check (exit when it exists
without `--force`; recursive removal of it with `--force`), parent
directory creation, atomic rename with copy-then-remove fallback, then
the metadata update.  Result: (performed mutations, success). -/
def restoreTransfer (env : TransferEnv) (force : Bool) (itemName : String) :
    List FsAction × Bool :=
  if env.destExists ∧ ¬force then ([], false)
  else if env.destExists ∧ ¬env.removeDestOk then ([], false)
  else
    let a1 : List FsAction := if env.destExists then [.removeDest] else []
    if ¬env.mkdirOk then (a1, false)
    else if env.renameOk then
      (a1 ++ [.mkdirParent, .renameToDest] ++
        updateActions (postRestoreUpdate env.reread itemName), true)
    else if ¬env.sourceStatOk then (a1 ++ [.mkdirParent], false)
    else if ¬env.copyOk then (a1 ++ [.mkdirParent], false)
    else
      (a1 ++ [.mkdirParent,
          if env.sourceIsDir then .copyDirToDest else .copyFileToDest] ++
        (if env.removeSrcOk then [.removeSrcFromTrash] else []) ++
        updateActions (postRestoreUpdate env.reread itemName), true)

/-- The whole restore command: resolver decision, then (only on the
restore branch) the transfer phase.  `notFound` and `displayAll` perform
no filesystem mutation. -/
def restoreCommandActions (env : TransferEnv) (showAll force : Bool)
    (specifiedTimestamp itemName : String)
    (entries : List (String × Option RestoreMetadata)) : List FsAction :=
  match restoreDecision showAll specifiedTimestamp itemName entries with
  | .notFound => []
  | .displayAll _ => []
  | .doRestore _ => (restoreTransfer env force itemName).1

/-- C7: destination handling of the restore transfer.  When the
destination exists and `--force` is absent the command fails having
performed no mutation; when it exists and `--force` is set (and the
removal succeeds) the first mutation is the recursive removal of the
destination, before any transfer; whenever the command proceeds past the
destination check, the destination's parent directory is created. -/
theorem restore_destination_handling (env : TransferEnv) (force : Bool)
    (n : String) :
    (env.destExists = true → force = false →
      restoreTransfer env force n = ([], false)) ∧
    (env.destExists = true → force = true → env.removeDestOk = true →
      (restoreTransfer env force n).1.head? = some .removeDest) ∧
    ((env.destExists = false ∨ (force = true ∧ env.removeDestOk = true)) →
      env.mkdirOk = true →
      .mkdirParent ∈ (restoreTransfer env force n).1) := by
  obtain ⟨de, rd, mk, rn, ss, sd, cp, rs, rr⟩ := env
  refine ⟨?_, ?_, ?_⟩
  · intro h1 h2
    simp only at h1 h2
    subst h1 h2
    simp [restoreTransfer]
  · intro h1 h2 h3
    simp only at h1 h2 h3
    subst h1 h2 h3
    cases hpu : postRestoreUpdate rr n <;>
      cases mk <;> cases rn <;> cases ss <;> cases cp <;> cases rs <;>
        simp [restoreTransfer, updateActions, hpu]
  · intro h1 h2
    simp only at h2
    subst h2
    rcases h1 with h1 | ⟨h1a, h1b⟩
    · simp only at h1
      subst h1
      cases hpu : postRestoreUpdate rr n <;>
        cases rn <;> cases ss <;> cases sd <;> cases cp <;> cases rs <;>
          simp [restoreTransfer, updateActions, hpu]
    · simp only at h1a h1b
      subst h1a h1b
      cases hpu : postRestoreUpdate rr n <;>
        cases de <;> cases rn <;> cases ss <;> cases sd <;>
          cases cp <;> cases rs <;>
            simp [restoreTransfer, updateActions, hpu]

/-- Witness for C7: with an existing destination and no `--force` the
transfer fails without mutating anything; with `--force` the first
mutation removes the destination; the parent directory is created on the
proceeding path. -/
theorem restore_destination_handling_witness :
    restoreTransfer ⟨true, true, true, true, true, false, true, true,
      some ⟨[]⟩⟩ false "a" = ([], false) ∧
    (restoreTransfer ⟨true, true, true, true, true, false, true, true,
      some ⟨[]⟩⟩ true "a").1.head? = some .removeDest ∧
    FsAction.mkdirParent ∈ (restoreTransfer ⟨false, true, true, true, true,
      false, true, true, some ⟨[]⟩⟩ true "a").1 :=
  ⟨(restore_destination_handling ⟨true, true, true, true, true, false, true,
      true, some ⟨[]⟩⟩ false "a").1 rfl rfl,
   (restore_destination_handling ⟨true, true, true, true, true, false, true,
      true, some ⟨[]⟩⟩ true "a").2.1 rfl rfl rfl,
   (restore_destination_handling ⟨false, true, true, true, true, false, true,
      true, some ⟨[]⟩⟩ true "a").2.2 (Or.inl rfl) rfl⟩

/-- C9: with `--force` set, an existing destination and the item missing
from the batch directory (rename fails, then the fallback stat of the
source fails), the command fails — but the pre-existing destination has
already been recursively removed (and the parent directory created): the
prior filesystem state is not preserved on this error path. -/
theorem force_overwrite_then_missing_source (env : TransferEnv)
    (force : Bool) (n : String)
    (h1 : env.destExists = true) (h2 : force = true)
    (h3 : env.removeDestOk = true) (h4 : env.mkdirOk = true)
    (h5 : env.renameOk = false) (h6 : env.sourceStatOk = false) :
    restoreTransfer env force n = ([.removeDest, .mkdirParent], false) := by
  obtain ⟨de, rd, mk, rn, ss, sd, cp, rs, rr⟩ := env
  simp only at h1 h2 h3 h4 h5 h6
  subst h1 h2 h3 h4 h5 h6
  simp [restoreTransfer]

/-- Witness for C9 at a concrete oracle. -/
theorem force_overwrite_then_missing_source_witness :
    restoreTransfer ⟨true, true, true, false, false, false, true, true,
      some ⟨[⟨"a", "/p", "t"⟩]⟩⟩ true "a" =
      ([.removeDest, .mkdirParent], false) :=
  force_overwrite_then_missing_source
    ⟨true, true, true, false, false, false, true, true,
      some ⟨[⟨"a", "/p", "t"⟩]⟩⟩ true "a" rfl rfl rfl rfl rfl rfl

/-- Counterexample for C3 as stated: with `--all` set but only a single
match, the `--all` branch (nested under `len(matches) > 1`) is never taken
and the restore proceeds, mutating the filesystem. -/
theorem all_flag_single_match_still_mutates :
    restoreCommandActions
      ⟨false, true, true, true, true, false, true, true,
        some ⟨[⟨"a.txt", "/tmp/a.txt", "t"⟩]⟩⟩
      true false "" "a.txt"
      [("20250101_000000", some ⟨[⟨"a.txt", "/tmp/a.txt", "t"⟩]⟩)] ≠
      [] := by
  decide

/-- C3 amended: a restore invocation with `--all` set performs no
filesystem mutation when the name matches more than one item; with
exactly one match `--all` is ignored and the restore proceeds. -/
theorem all_flag_multiple_matches_no_mutation (env : TransferEnv)
    (force : Bool) (ts itemName : String)
    (entries : List (String × Option RestoreMetadata))
    (h : 1 < (findMatches itemName ts entries).length) :
    restoreCommandActions env true force ts itemName entries = [] := by
  rw [restoreCommandActions]
  rcases hms : findMatches itemName ts entries with _ | ⟨a, rest⟩
  · rw [hms] at h
    simp at h
  · rw [hms] at h
    rcases rest with _ | ⟨b, rest⟩
    · simp at h
    · rw [restoreDecision, hms]
      simp

/-- Witness for C3's amended theorem: two matches and `--all` produce no
mutation. -/
theorem all_flag_multiple_matches_no_mutation_witness :
    restoreCommandActions
      ⟨false, true, true, true, true, false, true, true,
        some ⟨[⟨"a.txt", "/tmp/a.txt", "t"⟩]⟩⟩
      true false "" "a.txt"
      [("20250101_000000", some ⟨[⟨"a.txt", "/tmp/a.txt", "t1"⟩]⟩),
       ("20250102_000000", some ⟨[⟨"a.txt", "/tmp/a.txt", "t2"⟩]⟩)] = [] :=
  all_flag_multiple_matches_no_mutation _ _ _ _ _ (by decide)

/-! ## Sidecar JSON round trip (SaveRestoreMetadata, part_002 lines 126–142,
and the load/parse in cmd/list.go lines 62–77 and cmd/restore.go lines
79–88)

`SaveRestoreMetadata` writes `json.MarshalIndent(metadata)` to the
`.restore` file; loading reads the file back and `json.Unmarshal`s it.
The serialization is modelled at the JSON-document level (the byte-level
printing and parsing of the document, and the write-whole-file/read-back
of the sidecar, are the Go standard library's and are taken as faithful;
indentation is cosmetic).  The decoder mirrors `encoding/json` struct
decoding: unknown fields are ignored, a duplicated key keeps the last
value, a missing key or a JSON `null` leaves the zero value, and a
non-string value for a string field is an error. -/

inductive Json where
  | null
  | str (s : String)
  | num (n : Int)
  | boolean (b : Bool)
  | arr (elems : List Json)
  | obj (fields : List (String × Json))

/-- `json.Marshal` of one `RestoreItem` (struct tags `name`,
`original_path`, `trashed_at`). -/
def marshalItem (i : RestoreItem) : Json :=
  .obj [("name", .str i.name), ("original_path", .str i.originalPath),
        ("trashed_at", .str i.trashedAt)]

/-- `json.Marshal` of a `RestoreMetadata` (struct tag `items`), as written
by `SaveRestoreMetadata`. -/
def marshalMetadata (m : RestoreMetadata) : Json :=
  .obj [("items", .arr (m.items.map marshalItem))]

/-- Field lookup in a decoded JSON object; with a duplicated key the last
value wins, as in `encoding/json`. -/
def lookupField (fields : List (String × Json)) (key : String) :
    Option Json :=
  fields.foldl (fun acc f => if f.1 = key then some f.2 else acc) none

/-- Decode a string-typed struct field: absent or `null` leaves the zero
value `""`; a non-string value is an error. -/
def decodeStringField (fields : List (String × Json)) (key : String) :
    Option String :=
  match lookupField fields key with
  | none => some ""
  | some .null => some ""
  | some (.str s) => some s
  | some _ => none

/-- `json.Unmarshal` into a `RestoreItem`. -/
def unmarshalItem : Json → Option RestoreItem
  | .null => some ⟨"", "", ""⟩
  | .obj fields =>
    match decodeStringField fields "name",
          decodeStringField fields "original_path",
          decodeStringField fields "trashed_at" with
    | some n, some o, some t => some ⟨n, o, t⟩
    | _, _, _ => none
  | _ => none

/-- `json.Unmarshal` of a JSON array into a `[]RestoreItem`, element by
element, in order. -/
def unmarshalItems : List Json → Option (List RestoreItem)
  | [] => some []
  | j :: rest =>
    match unmarshalItem j, unmarshalItems rest with
    | some i, some is => some (i :: is)
    | _, _ => none

/-- `json.Unmarshal` into a `RestoreMetadata` (as done by `listCmd` and
`restoreCmd` when loading a sidecar). -/
def unmarshalMetadata : Json → Option RestoreMetadata
  | .null => some ⟨[]⟩
  | .obj fields =>
    match lookupField fields "items" with
    | none => some ⟨[]⟩
    | some .null => some ⟨[]⟩
    | some (.arr elems) =>
      (match unmarshalItems elems with
       | some is => some ⟨is⟩
       | none => none)
    | some _ => none
  | _ => none

theorem unmarshalItem_marshalItem (i : RestoreItem) :
    unmarshalItem (marshalItem i) = some i := rfl

theorem unmarshalItems_map_marshalItem :
    ∀ items : List RestoreItem,
      unmarshalItems (items.map marshalItem) = some items := by
  intro items
  induction items with
  | nil => rfl
  | cons i rest ih =>
    rw [List.map_cons, unmarshalItems, unmarshalItem_marshalItem, ih]

/-- C8: saving a metadata value to a batch's sidecar and then loading and
parsing the sidecar yields a metadata value with exactly the same items,
in the same order. -/
theorem sidecar_round_trip (m : RestoreMetadata) :
    unmarshalMetadata (marshalMetadata m) = some m := by
  obtain ⟨items⟩ := m
  rw [marshalMetadata, unmarshalMetadata]
  simp [lookupField, unmarshalItems_map_marshalItem]

end Trash
